import Mathlib

/-!
Verification development for the `firestore-batcher` library
(`src/index.ts`): an adaptive batch controller for Firestore write
operations.  The TypeScript source is shallowly embedded below:

* `Operation` mirrors the tagged union `CreateOperation | DeleteOperation |
  SetOperation | UpdateOperation` (document references are modelled as `Nat`
  identifiers, payload data as a type parameter `α`).
* `addOperationToBatch` mirrors the function of the same name: a
  `WriteBatch` is modelled as the list of primitive calls issued on it.
* `BatcherState` mirrors the closure variables `operationsProcessed`,
  `batchSize`, `operations` of `batcher`.
* `commitAttempt` mirrors one pass through the body of `commit()`
  (lines 168-203): slice a chunk, submit it, on success remove it, count it,
  run the optional `onBatchCommited` callback and grow the size; classify any
  thrown value, halving the size on the oversize signature and rethrowing
  otherwise.  `runCommit` iterates it with explicit fuel (the source recurses
  via `safeRecursiveAsyncCallback`, which is semantically a tail call).
* `runAll` mirrors `all()` (lines 205-217): the limited query is built once
  from the batch size at entry, then fetched and committed until a fetch
  returns no documents.

The document store is an external collaborator; it is modelled as an
environment assigning a response (`ok` or a structured error) to each
successive `batch.commit()` call, and a per-round result list to each
`limitedQuery.get()` call.
-/

namespace FirestoreBatcher

/-- Structured error thrown by the store client: Firestore errors carry a
numeric `code` and a `details` string, the two fields `commit()` inspects. -/
structure FsError where
  code : Int
  details : String
deriving DecidableEq

/-- Fixed message of the oversized-transaction failure (line 196). -/
def oversizeDetails : String := "Transaction too big. Decrease transaction size."

/-- Classifier from the catch block (lines 193-197):
`error.code === 3 && error.details === 'Transaction too big. ...'`. -/
def isOversizeError (e : FsError) : Bool :=
  e.code == 3 && e.details == oversizeDetails

/-- Model of `FirebaseFirestore.Precondition` (an `exists` constraint and/or
a last-update-time constraint); the batcher never inspects it, only forwards
it. -/
structure Precondition where
  mustExist : Option Bool
  lastUpdateTime : Option Nat
deriving DecidableEq

/-- Model of `Operation<T>` (lines 87-91): document references are `Nat`
identifiers, data payloads have type `α`. -/
inductive Operation (α : Type) where
  | create (documentRef : Nat) (data : α)
  | delete (documentRef : Nat) (precondition : Option Precondition)
  | set (documentRef : Nat) (data : α)
  | update (documentRef : Nat) (data : α) (precondition : Option Precondition)
deriving DecidableEq

/-- Model of one primitive call on a `WriteBatch`.  `update2` is the
two-argument overload `batch.update(ref, data)`, `update3` the
three-argument overload with an explicit precondition. -/
inductive BatchCall (α : Type) where
  | create (documentRef : Nat) (data : α)
  | delete (documentRef : Nat) (precondition : Option Precondition)
  | set (documentRef : Nat) (data : α)
  | update2 (documentRef : Nat) (data : α)
  | update3 (documentRef : Nat) (data : α) (precondition : Precondition)
deriving DecidableEq

/-- Model of `addOperationToBatch` (lines 113-141); the `WriteBatch` is the
list of calls issued so far, in order.  A delete always forwards its
(possibly absent) precondition; an update branches on the truthiness of
`operation.precondition` (a present precondition object is always truthy). -/
def addOperationToBatch (batch : List (BatchCall α)) :
    Operation α → List (BatchCall α)
  | .create ref data => batch ++ [.create ref data]
  | .delete ref pre => batch ++ [.delete ref pre]
  | .set ref data => batch ++ [.set ref data]
  | .update ref data pre =>
      match pre with
      | some p => batch ++ [.update3 ref data p]
      | none => batch ++ [.update2 ref data]

/-- Stats snapshot returned by `stats()` (lines 158-162). -/
structure BatcherStats where
  batchSize : Nat
  operationsProcessed : Nat
  operationsQueued : Nat
deriving DecidableEq

/-- The closure state of `batcher` (lines 153-156). -/
structure BatcherState (α : Type) where
  operationsProcessed : Nat
  batchSize : Nat
  operations : List (Operation α)
deriving DecidableEq

/-- State of a freshly constructed batcher: `operationsProcessed = 0`,
`batchSize = 500`, empty queue. -/
def initialState : BatcherState α := ⟨0, 500, []⟩

/-- Model of `stats()`. -/
def stats (st : BatcherState α) : BatcherStats :=
  ⟨st.batchSize, st.operationsProcessed, st.operations.length⟩

/-- Model of `add(operation)` (lines 164-166): push onto the queue. -/
def batcherAdd (st : BatcherState α) (op : Operation α) : BatcherState α :=
  { st with operations := st.operations ++ [op] }

/-- A sequence of `add` calls. -/
def enqueueAll (st : BatcherState α) (ops : List (Operation α)) : BatcherState α :=
  ops.foldl batcherAdd st

/-- Outcome of one `batch.commit()` call, decided by the store. -/
inductive StoreResp where
  | ok
  | error (e : FsError)
deriving DecidableEq

/-- Environment for `commit()`: the response the store gives to the n-th
`batch.commit()` call, and the optional `onBatchCommited` callback, which
receives a stats snapshot and either returns (`none`) or throws an error
(`some e`). -/
structure CommitEnv where
  respond : Nat → StoreResp
  callback : Option (BatcherStats → Option FsError)

/-- Growth rule from line 190, `Math.min(Math.floor(batchSize * 1.5), 500)`.
For a natural number `b` (always ≤ 750 here, so the float product is exact),
`Math.floor(b * 1.5) = 3 * b / 2` in natural division. -/
def growSize (b : Nat) : Nat := min (3 * b / 2) 500

/-- Success path of `commit()` (lines 183-184): remove the committed chunk
from the queue head and add its length to `operationsProcessed`. -/
def applyChunkCommit (st : BatcherState α) : BatcherState α :=
  { st with
    operationsProcessed :=
      st.operationsProcessed + (st.operations.take st.batchSize).length,
    operations := st.operations.drop (st.operations.take st.batchSize).length }

/-- Result of one pass through the body of `commit()`: either the function
recurses via `safeRecursiveAsyncCallback(commit)` from state `st`, or it
throws `e` leaving state `st`. -/
inductive StepResult (α : Type) where
  | next (st : BatcherState α)
  | fatal (e : FsError) (st : BatcherState α)
deriving DecidableEq

/-- State carried by a step result. -/
def StepResult.state : StepResult α → BatcherState α
  | .next st => st
  | .fatal _ st => st

/-- Catch block of `commit()` (lines 192-202): an error matching the
oversize signature halves the batch size and retries; anything else is
rethrown with the state untouched. -/
def handleCommitError (e : FsError) (st : BatcherState α) : StepResult α :=
  if isOversizeError e then .next { st with batchSize := st.batchSize / 2 }
  else .fatal e st

/-- Invocation of the optional `onBatchCommited` callback (lines 186-188):
`none` when absent or when it returns normally, `some e` when it throws. -/
def callbackResult (env : CommitEnv) (s : BatcherStats) : Option FsError :=
  match env.callback with
  | some f => f s
  | none => none

/-- One pass through the body of `commit()` on a non-empty queue
(lines 174-202).  The chunk is the first `batchSize` queued operations; on a
successful store commit the chunk is removed and counted, the callback runs
on the new stats, and the size grows; a throw from the store or from the
callback is classified by the catch block. -/
def commitAttempt (env : CommitEnv) (attempt : Nat) (st : BatcherState α) :
    StepResult α :=
  match env.respond attempt with
  | .ok =>
      let st1 := applyChunkCommit st
      match callbackResult env (stats st1) with
      | some e => handleCommitError e st1
      | none => .next { st1 with batchSize := growSize st1.batchSize }
  | .error e => handleCommitError e st

/-- Record of one `batch.commit()` submission: the chunk submitted, the
batch size at that attempt and the store's response. -/
structure Attempt (α : Type) where
  chunk : List (Operation α)
  batchSizeAt : Nat
  resp : StoreResp
deriving DecidableEq

/-- Outcome of a whole `commit()` call: normal return, a thrown error, or
fuel exhaustion (the call has not returned after that many passes).  Each
outcome carries the final state and the log of submissions made. -/
inductive CommitResult (α : Type) where
  | success (st : BatcherState α) (log : List (Attempt α))
  | fatal (e : FsError) (st : BatcherState α) (log : List (Attempt α))
  | outOfFuel (st : BatcherState α) (log : List (Attempt α))
deriving DecidableEq

/-- Final state of a commit run. -/
def CommitResult.state : CommitResult α → BatcherState α
  | .success st _ => st
  | .fatal _ st _ => st
  | .outOfFuel st _ => st

/-- Submission log of a commit run. -/
def CommitResult.log : CommitResult α → List (Attempt α)
  | .success _ log => log
  | .fatal _ _ log => log
  | .outOfFuel _ log => log

/-- True when the run returned normally. -/
def CommitResult.isSuccess : CommitResult α → Bool
  | .success _ _ => true
  | _ => false

/-- True when the run neither returned nor threw within its fuel. -/
def CommitResult.isOutOfFuel : CommitResult α → Bool
  | .outOfFuel _ _ => true
  | _ => false

/-- Prepend a submission record to the log of a run. -/
def CommitResult.consLog (r : CommitResult α) (a : Attempt α) : CommitResult α :=
  match r with
  | .success st log => .success st (a :: log)
  | .fatal e st log => .fatal e st (a :: log)
  | .outOfFuel st log => .outOfFuel st (a :: log)

/-- Model of a full `commit()` call (lines 168-203).  The source recurses on
itself after every successful or oversize pass; `fuel` bounds the number of
passes observed, `attempt` indexes `batch.commit()` calls in the
environment.  The guard `if (!operations.length) return` is the success
exit. -/
def runCommit (env : CommitEnv) : Nat → Nat → BatcherState α → CommitResult α
  | 0, _, st => .outOfFuel st []
  | fuel + 1, attempt, st =>
    if st.operations.isEmpty then .success st []
    else
      let rcd : Attempt α :=
        ⟨st.operations.take st.batchSize, st.batchSize, env.respond attempt⟩
      match commitAttempt env attempt st with
      | .next st' => (runCommit env fuel (attempt + 1) st').consLog rcd
      | .fatal e st' => .fatal e st' [rcd]

/-- Operations carried by the successfully committed submissions of a log,
in submission order.  A failed submission commits nothing (the atomic batch
is all-or-nothing), so only `ok` responses contribute. -/
def committedOps : List (Attempt α) → List (Operation α)
  | [] => []
  | a :: rest =>
      match a.resp with
      | .ok => a.chunk ++ committedOps rest
      | .error _ => committedOps rest

/-- Environment for `all()`: a commit environment for the store's batch
endpoint, together with the documents returned by the n-th
`limitedQuery.get()` call when issued with a given limit.  A real store
re-evaluates the query each round, so the result may differ per round. -/
structure AllEnv extends CommitEnv where
  queryGet : Nat → Nat → List Nat

/-- Record of one `limitedQuery.get()` call: the limit attached to the
query, and the controller's batch size at the moment the call was issued. -/
structure QueryIssue where
  limit : Nat
  sizeAtIssue : Nat
deriving DecidableEq

/-- Outcome of a whole `all()` call, with the log of query issues. -/
inductive AllResult (α : Type) where
  | success (st : BatcherState α) (issues : List QueryIssue)
  | fatal (e : FsError) (st : BatcherState α) (issues : List QueryIssue)
  | outOfFuel (st : BatcherState α) (issues : List QueryIssue)
deriving DecidableEq

/-- Final state of an `all()` run. -/
def AllResult.state : AllResult α → BatcherState α
  | .success st _ => st
  | .fatal _ st _ => st
  | .outOfFuel st _ => st

/-- Query-issue log of an `all()` run. -/
def AllResult.issues : AllResult α → List QueryIssue
  | .success _ i => i
  | .fatal _ _ i => i
  | .outOfFuel _ i => i

/-- True when the run neither returned nor threw within its fuel. -/
def AllResult.isOutOfFuel : AllResult α → Bool
  | .outOfFuel _ _ => true
  | _ => false

/-- Prepend a query-issue record to the log of a run. -/
def AllResult.consIssue (r : AllResult α) (q : QueryIssue) : AllResult α :=
  match r with
  | .success st i => .success st (q :: i)
  | .fatal e st i => .fatal e st (q :: i)
  | .outOfFuel st i => .outOfFuel st (q :: i)

/-- Loop of `all()` (lines 210-216), restructured as get-then-process: fetch
with the fixed `limit`; if no results return; otherwise enqueue one built
operation per document, run `commit()` (with `cFuel` passes available), and
repeat.  `round` indexes `get()` calls, `attempt` indexes `batch.commit()`
calls; a commit pass consumes one attempt per logged submission. -/
def runAll (env : AllEnv) (builder : Nat → Operation α) (cFuel : Nat) :
    Nat → Nat → Nat → Nat → BatcherState α → AllResult α
  | 0, _, _, _, st => .outOfFuel st []
  | fuel + 1, round, attempt, limit, st =>
    let issue : QueryIssue := ⟨limit, st.batchSize⟩
    let docs := env.queryGet round limit
    if docs.isEmpty then .success st [issue]
    else
      let st1 := enqueueAll st (docs.map builder)
      match runCommit env.toCommitEnv cFuel attempt st1 with
      | .success st2 log =>
          (runAll env builder cFuel fuel (round + 1) (attempt + log.length)
            limit st2).consIssue issue
      | .fatal e st2 _ => .fatal e st2 [issue]
      | .outOfFuel st2 _ => .outOfFuel st2 [issue]

/-- Model of a full `all(query, operationBuilder)` call (lines 205-217).
The limited query is built once, from the batch size at entry
(line 209: `const limitedQuery = query.limit(batchSize)`), and every
round reuses it. -/
def batcherAll (env : AllEnv) (builder : Nat → Operation α)
    (fuel cFuel : Nat) (st : BatcherState α) : AllResult α :=
  runAll env builder cFuel fuel 0 0 st.batchSize st

/-- States of a batcher observable by its caller: the initial state, and the
states after any completed `add`, `commit()` or `all()` call (`stats()` does
not change state; a `commit()`/`all()` call completes when it either
returns or throws within its fuel). -/
inductive Reachable : BatcherState α → Prop where
  | init : Reachable initialState
  | add (op : Operation α) {st : BatcherState α} :
      Reachable st → Reachable (batcherAdd st op)
  | commitCall (env : CommitEnv) (fuel : Nat) {st : BatcherState α} :
      Reachable st → (runCommit env fuel 0 st).isOutOfFuel = false →
      Reachable ((runCommit env fuel 0 st).state)
  | allCall (env : AllEnv) (builder : Nat → Operation α) (fuel cFuel : Nat)
      {st : BatcherState α} :
      Reachable st → (batcherAll env builder fuel cFuel st).isOutOfFuel = false →
      Reachable ((batcherAll env builder fuel cFuel st).state)

/-! ### Concrete errors, operations and environments used in scenarios -/

/-- The oversized-transaction error of the reference backend. -/
def ovErr : FsError := ⟨3, oversizeDetails⟩

/-- Some other, non-oversize store error (e.g. a permission failure). -/
def bigErr : FsError := ⟨13, "internal error"⟩

/-- A sample queued operation. -/
def opD : Operation Nat := .delete 0 none

/-- Three sample queued operations, in insertion order. -/
def opsW : List (Operation Nat) := [.delete 0 none, .create 1 5, .set 2 7]

/-- A store that accepts every batch; no callback configured. -/
def allOkCommitEnv : CommitEnv := ⟨fun _ => .ok, none⟩

/-- A store that reports every batch oversized; no callback configured. -/
def oversizeOnlyEnv : CommitEnv := ⟨fun _ => .error ovErr, none⟩

/-- A store that reports the first batch oversized and accepts every later
one; no callback configured. -/
def envC8 : CommitEnv := ⟨fun k => if k == 0 then .error ovErr else .ok, none⟩

/-- 600 queued operations, in insertion order. -/
def ops600 : List (Operation Nat) := (List.range 600).map (fun i => .delete i none)

/-- A store that reports the first nine batches oversized and then fails
with a non-oversize error. -/
def cexC2Env : CommitEnv :=
  ⟨fun k => if k < 9 then .error ovErr else .error bigErr, none⟩

/-- A store whose first batch is oversized and later ones succeed, and whose
query matches one document on the first round and none afterwards. -/
def cexAllEnv : AllEnv :=
  ⟨⟨fun k => if k == 0 then .error ovErr else .ok, none⟩,
    fun r _ => if r == 0 then [7] else []⟩

/-- Operation builder used with `all()`: delete each matched document. -/
def cexBuilder : Nat → Operation Nat := fun d => .delete d none

/-- A store that accepts every batch but whose `onBatchCommited` callback
always throws the oversize-signature error. -/
def throwingCbEnv : CommitEnv := ⟨fun _ => .ok, some (fun _ => some ovErr)⟩

/-- A store that fails every batch with a non-oversize error, with a query
matching one document on the first round. -/
def fatalAllEnv : AllEnv :=
  ⟨⟨fun _ => .error bigErr, none⟩, fun r _ => if r == 0 then [7] else []⟩

/-! ### Basic lemmas about the embedding -/

@[simp]
theorem CommitResult.consLog_state (r : CommitResult α) (a : Attempt α) :
    (r.consLog a).state = r.state := by
  cases r <;> rfl

@[simp]
theorem CommitResult.consLog_log (r : CommitResult α) (a : Attempt α) :
    (r.consLog a).log = a :: r.log := by
  cases r <;> rfl

@[simp]
theorem CommitResult.consLog_isSuccess (r : CommitResult α) (a : Attempt α) :
    (r.consLog a).isSuccess = r.isSuccess := by
  cases r <;> rfl

@[simp]
theorem CommitResult.consLog_isOutOfFuel (r : CommitResult α) (a : Attempt α) :
    (r.consLog a).isOutOfFuel = r.isOutOfFuel := by
  cases r <;> rfl

@[simp]
theorem AllResult.consIssue_state (r : AllResult α) (q : QueryIssue) :
    (r.consIssue q).state = r.state := by
  cases r <;> rfl

@[simp]
theorem AllResult.consIssue_issues (r : AllResult α) (q : QueryIssue) :
    (r.consIssue q).issues = q :: r.issues := by
  cases r <;> rfl

@[simp]
theorem committedOps_nil : committedOps ([] : List (Attempt α)) = [] := rfl

@[simp]
theorem committedOps_cons_ok (c : List (Operation α)) (b : Nat)
    (rest : List (Attempt α)) :
    committedOps (⟨c, b, .ok⟩ :: rest) = c ++ committedOps rest := rfl

@[simp]
theorem committedOps_cons_error (c : List (Operation α)) (b : Nat) (e : FsError)
    (rest : List (Attempt α)) :
    committedOps (⟨c, b, .error e⟩ :: rest) = committedOps rest := rfl

@[simp]
theorem applyChunkCommit_operations (st : BatcherState α) :
    (applyChunkCommit st).operations
      = st.operations.drop (st.operations.take st.batchSize).length := rfl

@[simp]
theorem applyChunkCommit_operationsProcessed (st : BatcherState α) :
    (applyChunkCommit st).operationsProcessed
      = st.operationsProcessed + (st.operations.take st.batchSize).length := rfl

@[simp]
theorem applyChunkCommit_batchSize (st : BatcherState α) :
    (applyChunkCommit st).batchSize = st.batchSize := rfl

theorem take_append_drop_len (n : Nat) (l : List β) :
    l.take n ++ l.drop (l.take n).length = l := by
  rw [List.length_take]
  rcases Nat.le_total n l.length with h | h
  · rw [Nat.min_eq_left h]
    exact List.take_append_drop n l
  · rw [Nat.min_eq_right h, List.drop_length, List.append_nil]
    exact List.take_of_length_le h

theorem enqueueAll_operations (st : BatcherState α) (ops : List (Operation α)) :
    (enqueueAll st ops).operations = st.operations ++ ops := by
  induction ops generalizing st with
  | nil => simp [enqueueAll]
  | cons o rest ih =>
      show (enqueueAll (batcherAdd st o) rest).operations = _
      rw [ih]
      simp [batcherAdd]

theorem enqueueAll_batchSize (st : BatcherState α) (ops : List (Operation α)) :
    (enqueueAll st ops).batchSize = st.batchSize := by
  induction ops generalizing st with
  | nil => rfl
  | cons o rest ih =>
      show (enqueueAll (batcherAdd st o) rest).batchSize = _
      rw [ih]
      rfl

/-- Unfolding of `runCommit` when the queue is non-empty and the pass
recurses. -/
theorem runCommit_succ_next (env : CommitEnv) (fuel attempt : Nat)
    (st st' : BatcherState α)
    (hemp : st.operations.isEmpty = false)
    (hstep : commitAttempt env attempt st = .next st') :
    runCommit env (fuel + 1) attempt st
      = (runCommit env fuel (attempt + 1) st').consLog
          ⟨st.operations.take st.batchSize, st.batchSize, env.respond attempt⟩ := by
  simp [runCommit, hemp, hstep]

/-- Unfolding of `runCommit` when the queue is non-empty and the pass
throws. -/
theorem runCommit_succ_fatal (env : CommitEnv) (fuel attempt : Nat)
    (st st' : BatcherState α) (e : FsError)
    (hemp : st.operations.isEmpty = false)
    (hstep : commitAttempt env attempt st = .fatal e st') :
    runCommit env (fuel + 1) attempt st
      = .fatal e st'
          [⟨st.operations.take st.batchSize, st.batchSize, env.respond attempt⟩] := by
  simp [runCommit, hemp, hstep]

/-- Core queue invariant of the commit driver: however a `commit()` run ends
(normal return, thrown error or exhausted fuel), the operations carried by
its successful submissions, followed by the operations still queued, are
exactly the operations that were queued at the start — and
`operationsProcessed` advanced by exactly the number of operations
successfully committed.  No loss, no duplication, no reordering. -/
theorem runCommit_inv (env : CommitEnv) (fuel attempt : Nat)
    (st : BatcherState α) :
    committedOps (runCommit env fuel attempt st).log
        ++ (runCommit env fuel attempt st).state.operations = st.operations
    ∧ (runCommit env fuel attempt st).state.operationsProcessed
        = st.operationsProcessed
          + (committedOps (runCommit env fuel attempt st).log).length := by
  induction fuel generalizing attempt st with
  | zero =>
      simp [runCommit, CommitResult.log, CommitResult.state]
  | succ fuel ih =>
      cases hemp : st.operations.isEmpty with
      | true =>
          simp [runCommit, hemp, CommitResult.log, CommitResult.state]
      | false =>
          rcases hresp : env.respond attempt with _ | e
          · -- store commit succeeded
            rcases hcb : callbackResult env (stats (applyChunkCommit st)) with _ | e0
            · -- callback absent or returned normally: grow and recurse
              have hstep : commitAttempt env attempt st
                  = .next { applyChunkCommit st with
                            batchSize := growSize (applyChunkCommit st).batchSize } := by
                simp [commitAttempt, hresp, hcb]
              rw [runCommit_succ_next env fuel attempt st _ hemp hstep, hresp]
              obtain ⟨ih1, ih2⟩ := ih (attempt + 1)
                { applyChunkCommit st with
                  batchSize := growSize (applyChunkCommit st).batchSize }
              constructor
              · simp only [CommitResult.consLog_log, CommitResult.consLog_state,
                  committedOps_cons_ok, List.append_assoc]
                rw [ih1]
                exact take_append_drop_len st.batchSize st.operations
              · simp only [CommitResult.consLog_log, CommitResult.consLog_state,
                  committedOps_cons_ok, List.length_append]
                rw [ih2]
                simp
                omega
            · -- callback threw: classified by the catch block
              cases hov : isOversizeError e0 with
              | true =>
                  have hstep : commitAttempt env attempt st
                      = .next { applyChunkCommit st with
                                batchSize := (applyChunkCommit st).batchSize / 2 } := by
                    simp [commitAttempt, hresp, hcb, handleCommitError, hov]
                  rw [runCommit_succ_next env fuel attempt st _ hemp hstep, hresp]
                  obtain ⟨ih1, ih2⟩ := ih (attempt + 1)
                    { applyChunkCommit st with
                      batchSize := (applyChunkCommit st).batchSize / 2 }
                  constructor
                  · simp only [CommitResult.consLog_log, CommitResult.consLog_state,
                      committedOps_cons_ok, List.append_assoc]
                    rw [ih1]
                    exact take_append_drop_len st.batchSize st.operations
                  · simp only [CommitResult.consLog_log, CommitResult.consLog_state,
                      committedOps_cons_ok, List.length_append]
                    rw [ih2]
                    simp
                    omega
              | false =>
                  have hstep : commitAttempt env attempt st
                      = .fatal e0 (applyChunkCommit st) := by
                    simp [commitAttempt, hresp, hcb, handleCommitError, hov]
                  rw [runCommit_succ_fatal env fuel attempt st _ e0 hemp hstep, hresp]
                  constructor
                  · simp only [CommitResult.log, CommitResult.state,
                      committedOps_cons_ok, committedOps_nil, List.append_nil,
                      applyChunkCommit_operations]
                    exact take_append_drop_len st.batchSize st.operations
                  · simp [CommitResult.log, CommitResult.state]
          · -- store commit threw
            cases hov : isOversizeError e with
            | true =>
                have hstep : commitAttempt env attempt st
                    = .next { st with batchSize := st.batchSize / 2 } := by
                  simp [commitAttempt, hresp, handleCommitError, hov]
                rw [runCommit_succ_next env fuel attempt st _ hemp hstep, hresp]
                obtain ⟨ih1, ih2⟩ := ih (attempt + 1) { st with batchSize := st.batchSize / 2 }
                constructor
                · simp only [CommitResult.consLog_log, CommitResult.consLog_state,
                    committedOps_cons_error]
                  exact ih1
                · simp only [CommitResult.consLog_log, CommitResult.consLog_state,
                    committedOps_cons_error]
                  exact ih2
            | false =>
                have hstep : commitAttempt env attempt st = .fatal e st := by
                  simp [commitAttempt, hresp, handleCommitError, hov]
                rw [runCommit_succ_fatal env fuel attempt st _ e hemp hstep, hresp]
                simp [CommitResult.log, CommitResult.state]

/-- A `commit()` run that returns normally leaves the queue empty (the only
normal exit is the `if (!operations.length) return` guard). -/
theorem runCommit_success_ops (env : CommitEnv) (fuel attempt : Nat)
    (st : BatcherState α)
    (h : (runCommit env fuel attempt st).isSuccess = true) :
    (runCommit env fuel attempt st).state.operations = [] := by
  induction fuel generalizing attempt st with
  | zero => simp [runCommit, CommitResult.isSuccess] at h
  | succ fuel ih =>
      cases hemp : st.operations.isEmpty with
      | true =>
          simp [runCommit, hemp, CommitResult.state]
          exact List.isEmpty_iff.mp hemp
      | false =>
          rcases hstep : commitAttempt env attempt st with st' | ⟨e, st'⟩
          · rw [runCommit_succ_next env fuel attempt st st' hemp hstep] at h ⊢
            simp only [CommitResult.consLog_state, CommitResult.consLog_isSuccess] at h ⊢
            exact ih (attempt + 1) st' h
          · rw [runCommit_succ_fatal env fuel attempt st st' e hemp hstep] at h
            simp [CommitResult.isSuccess] at h

/-- One pass of `commit()` keeps the batch size within the 500 cap: growth
is capped by `min(.., 500)` and halving only shrinks. -/
theorem commitAttempt_batchSize_le (env : CommitEnv) (attempt : Nat)
    (st : BatcherState α) (h : st.batchSize ≤ 500) :
    (commitAttempt env attempt st).state.batchSize ≤ 500 := by
  have hh : ∀ (e : FsError) (s : BatcherState α), s.batchSize ≤ 500 →
      (handleCommitError e s).state.batchSize ≤ 500 := by
    intro e s hs
    unfold handleCommitError
    split
    · simp only [StepResult.state]
      omega
    · simpa [StepResult.state] using hs
  rcases hresp : env.respond attempt with _ | e
  · rcases hcb : callbackResult env (stats (applyChunkCommit st)) with _ | e0
    · have hstep : commitAttempt env attempt st
          = .next { applyChunkCommit st with
                    batchSize := growSize (applyChunkCommit st).batchSize } := by
        simp [commitAttempt, hresp, hcb]
      rw [hstep]
      simp only [StepResult.state, growSize]
      omega
    · have hstep : commitAttempt env attempt st
          = handleCommitError e0 (applyChunkCommit st) := by
        simp [commitAttempt, hresp, hcb]
      rw [hstep]
      exact hh e0 _ (by simpa using h)
  · have hstep : commitAttempt env attempt st = handleCommitError e st := by
      simp [commitAttempt, hresp]
    rw [hstep]
    exact hh e st h

/-- The batch size stays within the 500 cap across a whole `commit()`
run. -/
theorem runCommit_batchSize_le (env : CommitEnv) (fuel attempt : Nat)
    (st : BatcherState α) (h : st.batchSize ≤ 500) :
    (runCommit env fuel attempt st).state.batchSize ≤ 500 := by
  induction fuel generalizing attempt st with
  | zero => simpa [runCommit, CommitResult.state] using h
  | succ fuel ih =>
      cases hemp : st.operations.isEmpty with
      | true => simpa [runCommit, hemp, CommitResult.state] using h
      | false =>
          have hstate := commitAttempt_batchSize_le env attempt st h
          rcases hstep : commitAttempt env attempt st with st' | ⟨e, st'⟩
          · rw [runCommit_succ_next env fuel attempt st st' hemp hstep]
            rw [hstep] at hstate
            simp only [CommitResult.consLog_state]
            exact ih (attempt + 1) st' (by simpa [StepResult.state] using hstate)
          · rw [runCommit_succ_fatal env fuel attempt st st' e hemp hstep]
            rw [hstep] at hstate
            simpa [CommitResult.state, StepResult.state] using hstate

/-- Unfolding of `runAll` when the query returns no documents. -/
theorem runAll_succ_get_empty (env : AllEnv) (builder : Nat → Operation α)
    (cFuel fuel round attempt limit : Nat) (st : BatcherState α)
    (hdocs : (env.queryGet round limit).isEmpty = true) :
    runAll env builder cFuel (fuel + 1) round attempt limit st
      = .success st [⟨limit, st.batchSize⟩] := by
  simp [runAll, hdocs]

/-- Unfolding of `runAll` when the round's commit returns normally. -/
theorem runAll_succ_commit_success (env : AllEnv) (builder : Nat → Operation α)
    (cFuel fuel round attempt limit : Nat) (st st2 : BatcherState α)
    (log : List (Attempt α))
    (hdocs : (env.queryGet round limit).isEmpty = false)
    (hr : runCommit env.toCommitEnv cFuel attempt
        (enqueueAll st ((env.queryGet round limit).map builder))
      = .success st2 log) :
    runAll env builder cFuel (fuel + 1) round attempt limit st
      = (runAll env builder cFuel fuel (round + 1) (attempt + log.length)
          limit st2).consIssue ⟨limit, st.batchSize⟩ := by
  simp [runAll, hdocs, hr]

/-- Unfolding of `runAll` when the round's commit throws. -/
theorem runAll_succ_commit_fatal (env : AllEnv) (builder : Nat → Operation α)
    (cFuel fuel round attempt limit : Nat) (st st2 : BatcherState α)
    (e : FsError) (log : List (Attempt α))
    (hdocs : (env.queryGet round limit).isEmpty = false)
    (hr : runCommit env.toCommitEnv cFuel attempt
        (enqueueAll st ((env.queryGet round limit).map builder))
      = .fatal e st2 log) :
    runAll env builder cFuel (fuel + 1) round attempt limit st
      = .fatal e st2 [⟨limit, st.batchSize⟩] := by
  simp [runAll, hdocs, hr]

/-- Unfolding of `runAll` when the round's commit runs out of fuel. -/
theorem runAll_succ_commit_outOfFuel (env : AllEnv) (builder : Nat → Operation α)
    (cFuel fuel round attempt limit : Nat) (st st2 : BatcherState α)
    (log : List (Attempt α))
    (hdocs : (env.queryGet round limit).isEmpty = false)
    (hr : runCommit env.toCommitEnv cFuel attempt
        (enqueueAll st ((env.queryGet round limit).map builder))
      = .outOfFuel st2 log) :
    runAll env builder cFuel (fuel + 1) round attempt limit st
      = .outOfFuel st2 [⟨limit, st.batchSize⟩] := by
  simp [runAll, hdocs, hr]

/-- The batch size stays within the 500 cap across a whole `all()` run. -/
theorem runAll_batchSize_le (env : AllEnv) (builder : Nat → Operation α)
    (cFuel fuel round attempt limit : Nat) (st : BatcherState α)
    (h : st.batchSize ≤ 500) :
    (runAll env builder cFuel fuel round attempt limit st).state.batchSize ≤ 500 := by
  induction fuel generalizing round attempt st with
  | zero => simpa [runAll, AllResult.state] using h
  | succ fuel ih =>
      have h1 : (enqueueAll st ((env.queryGet round limit).map builder)).batchSize ≤ 500 := by
        rw [enqueueAll_batchSize]
        exact h
      have h2 := runCommit_batchSize_le env.toCommitEnv cFuel attempt
        (enqueueAll st ((env.queryGet round limit).map builder)) h1
      cases hdocs : (env.queryGet round limit).isEmpty with
      | true =>
          rw [runAll_succ_get_empty env builder cFuel fuel round attempt limit st hdocs]
          simpa [AllResult.state] using h
      | false =>
          rcases hr : runCommit env.toCommitEnv cFuel attempt
              (enqueueAll st ((env.queryGet round limit).map builder))
            with ⟨st2, log⟩ | ⟨e, st2, log⟩ | ⟨st2, log⟩
          · rw [runAll_succ_commit_success env builder cFuel fuel round attempt
              limit st st2 log hdocs hr]
            rw [hr] at h2
            simp only [AllResult.consIssue_state]
            exact ih (round + 1) (attempt + log.length) st2
              (by simpa [CommitResult.state] using h2)
          · rw [runAll_succ_commit_fatal env builder cFuel fuel round attempt
              limit st st2 e log hdocs hr]
            rw [hr] at h2
            simpa [AllResult.state, CommitResult.state] using h2
          · rw [runAll_succ_commit_outOfFuel env builder cFuel fuel round attempt
              limit st st2 log hdocs hr]
            rw [hr] at h2
            simpa [AllResult.state, CommitResult.state] using h2

/-! ### Claims -/

/-- C1: for every sequence of `add` calls followed by one `commit()` call
that completes without a fatal error, the operations committed to the store
by the successful batch submissions, in submission order, are exactly the
enqueued operations in insertion order — no loss, no duplication, no
reordering.  (A submission rejected with the oversize signature commits
nothing, the atomic batch being all-or-nothing, and its operations stay
queued for resubmission; "submitted exactly once" is the successful,
effective submission.) -/
theorem commit_submits_all_in_order (ops : List (Operation α)) (env : CommitEnv)
    (fuel : Nat) (st' : BatcherState α) (log : List (Attempt α))
    (h : runCommit env fuel 0 (enqueueAll initialState ops) = .success st' log) :
    committedOps log = ops := by
  have hinv := (runCommit_inv env fuel 0 (enqueueAll initialState ops)).1
  have hsucc : (runCommit env fuel 0 (enqueueAll initialState ops)).isSuccess = true := by
    rw [h]
    rfl
  have hops := runCommit_success_ops env fuel 0 (enqueueAll initialState ops) hsucc
  rw [h] at hinv hops
  simp only [CommitResult.log, CommitResult.state] at hinv hops
  rw [hops, List.append_nil, enqueueAll_operations] at hinv
  simpa [initialState] using hinv

/-- Witness for C1: three operations, a store that accepts every batch; the
single committed chunk is the queue in insertion order. -/
theorem commit_submits_all_in_order_applied :
    committedOps [⟨opsW, 500, .ok⟩] = opsW :=
  commit_submits_all_in_order opsW allOkCommitEnv 2 ⟨3, 500, []⟩
    [⟨opsW, 500, .ok⟩] rfl

/-- C9: translating a chunk into a store batch, an update without a
precondition is issued as the two-argument `batch.update(ref, data)` call
(the precondition argument omitted entirely), while a delete always
forwards its precondition field, passing the absent value through. -/
theorem batch_update_delete_preconditions (batch : List (BatchCall α))
    (r : Nat) (d : α) (pre : Option Precondition) :
    addOperationToBatch batch (.update r d none) = batch ++ [.update2 r d]
    ∧ addOperationToBatch batch (.delete r pre) = batch ++ [.delete r pre] :=
  ⟨rfl, rfl⟩

/-- C6: whenever the store accepts a chunk and the optional callback does
not throw, the batch size becomes `min(floor(batchSize * 1.5), 500)` —
independent of how many operations the chunk contained (the state is
arbitrary here, so the chunk may be a partial final one).  For a natural
number size, `floor(batchSize * 1.5) = 3 * batchSize / 2`. -/
theorem success_sets_grown_batch_size (env : CommitEnv) (attempt : Nat)
    (st : BatcherState α)
    (hresp : env.respond attempt = .ok)
    (hcb : callbackResult env (stats (applyChunkCommit st)) = none) :
    commitAttempt env attempt st
      = .next { applyChunkCommit st with
                batchSize := min (3 * st.batchSize / 2) 500 } := by
  simp [commitAttempt, hresp, hcb, growSize]

/-- Witness for C6: a partial final chunk (one operation at size 10) still
grows the size to `min(15, 500) = 15`. -/
theorem success_sets_grown_batch_size_applied :
    commitAttempt allOkCommitEnv 0 (⟨0, 10, [opD]⟩ : BatcherState Nat)
      = .next ⟨1, 15, []⟩ :=
  success_sets_grown_batch_size allOkCommitEnv 0 ⟨0, 10, [opD]⟩ rfl rfl

/-- C10: if the `onBatchCommited` callback throws, the thrown value reaches
the same catch block as store commit errors: the oversize signature halves
the size and retries, anything else propagates — and in both cases the
result state builds on `applyChunkCommit st`, i.e. the just-committed chunk
was already removed from the queue and counted in `operationsProcessed`
before the callback ran (the callback itself received the post-removal
stats). -/
theorem callback_error_same_classifier (env : CommitEnv) (attempt : Nat)
    (st : BatcherState α) (f : BatcherStats → Option FsError) (e : FsError)
    (hresp : env.respond attempt = .ok)
    (hcbf : env.callback = some f)
    (hthrow : f (stats (applyChunkCommit st)) = some e) :
    commitAttempt env attempt st
      = if isOversizeError e
        then .next { applyChunkCommit st with batchSize := st.batchSize / 2 }
        else .fatal e (applyChunkCommit st) := by
  have hcb : callbackResult env (stats (applyChunkCommit st)) = some e := by
    simp [callbackResult, hcbf, hthrow]
  simp [commitAttempt, hresp, hcb, handleCommitError]

/-- Witness for C10: a callback that throws the oversize signature right
after a successful chunk of one operation; the chunk is gone and counted,
and the size halves from 500 to 250. -/
theorem callback_error_same_classifier_applied :
    commitAttempt throwingCbEnv 0 (⟨0, 500, [opD]⟩ : BatcherState Nat)
      = if isOversizeError ovErr
        then .next ⟨1, 250, []⟩
        else .fatal ovErr ⟨1, 500, []⟩ :=
  callback_error_same_classifier throwingCbEnv 0 ⟨0, 500, [opD]⟩
    (fun _ => some ovErr) ovErr rfl rfl rfl

/-- C3 (counterexample to "strictly smaller"): a queue of one operation at
size 500 fails oversized; the size halves to 250, but the next attempted
chunk is the same single-operation chunk as the failed attempt — its length
is capped by the queue length, so it is not strictly smaller. -/
theorem oversize_chunk_not_strictly_smaller :
    commitAttempt oversizeOnlyEnv 0 (⟨0, 500, [opD]⟩ : BatcherState Nat)
        = .next ⟨0, 250, [opD]⟩
    ∧ ¬ ((([opD] : List (Operation Nat)).take 250).length
          < (([opD] : List (Operation Nat)).take 500).length) :=
  ⟨rfl, by decide⟩

/-- C3 (amended): on an oversize store failure nothing is removed from the
queue and `operationsProcessed` is unchanged; the batch size becomes
`floor(previousSize / 2)`, so the next attempted chunk is a prefix of the
failed chunk (same leading operations of the same queue) and is never
larger; it is strictly smaller exactly when the halved size is below the
failed chunk's length (i.e. when the size, not the queue length, was the
binding constraint). -/
theorem oversize_failure_halves_size_keeps_queue (env : CommitEnv)
    (attempt : Nat) (st : BatcherState α) (e : FsError)
    (hresp : env.respond attempt = .error e)
    (hov : isOversizeError e = true) :
    commitAttempt env attempt st
        = .next ⟨st.operationsProcessed, st.batchSize / 2, st.operations⟩
    ∧ st.operations.take (st.batchSize / 2)
        = (st.operations.take st.batchSize).take (st.batchSize / 2)
    ∧ (st.operations.take (st.batchSize / 2)).length
        ≤ (st.operations.take st.batchSize).length
    ∧ (st.batchSize / 2 < (st.operations.take st.batchSize).length →
        (st.operations.take (st.batchSize / 2)).length
          < (st.operations.take st.batchSize).length) := by
  refine ⟨?_, ?_, ?_, ?_⟩
  · simp [commitAttempt, hresp, handleCommitError, hov]
  · rw [List.take_take, Nat.min_eq_left (Nat.div_le_self _ _)]
  · rw [List.length_take, List.length_take]
    omega
  · intro hlt
    rw [List.length_take] at hlt ⊢
    rw [List.length_take]
    omega

/-- Witness for C3 (amended): queue of three operations at size 100; the
oversize failure keeps the queue and the processed count and halves the
size to 50. -/
theorem oversize_failure_halves_size_keeps_queue_applied :
    commitAttempt oversizeOnlyEnv 0 (⟨7, 100, opsW⟩ : BatcherState Nat)
        = .next ⟨7, 50, opsW⟩
    ∧ opsW.take 50 = (opsW.take 100).take 50
    ∧ (opsW.take 50).length ≤ (opsW.take 100).length
    ∧ (50 < (opsW.take 100).length →
        (opsW.take 50).length < (opsW.take 100).length) :=
  oversize_failure_halves_size_keeps_queue oversizeOnlyEnv 0
    ⟨7, 100, opsW⟩ ovErr rfl rfl

/-- C5: the claim describes the intended behavior (spec section 4.3 and
section 9: a zero batch size with a non-empty queue must be fatal), but the
code never signals it: once `batchSize` is 0 with a non-empty queue,
`commit()` slices an empty chunk each pass, commits an empty batch, grows
the size by `min(floor(0 * 1.5), 500) = 0` and recurses — it never returns
and never throws, for any amount of fuel, and every submitted batch is
empty. -/
theorem commit_size_zero_never_returns (fuel attempt processed : Nat)
    (ops : List (Operation Nat)) (h : ops ≠ []) :
    (runCommit allOkCommitEnv fuel attempt
        (⟨processed, 0, ops⟩ : BatcherState Nat)).isOutOfFuel = true
    ∧ ∀ a ∈ (runCommit allOkCommitEnv fuel attempt
        (⟨processed, 0, ops⟩ : BatcherState Nat)).log, a.chunk = [] := by
  induction fuel generalizing attempt with
  | zero =>
      constructor
      · rfl
      · intro a ha
        simp [runCommit, CommitResult.log] at ha
  | succ fuel ih =>
      have hemp : (⟨processed, 0, ops⟩ : BatcherState Nat).operations.isEmpty = false := by
        cases hh : ops.isEmpty
        · rfl
        · exact absurd (List.isEmpty_iff.mp hh) h
      have hstep : commitAttempt allOkCommitEnv attempt
          (⟨processed, 0, ops⟩ : BatcherState Nat)
            = .next ⟨processed, 0, ops⟩ := by
        simp [commitAttempt, allOkCommitEnv, callbackResult, applyChunkCommit,
          growSize, stats]
      rw [runCommit_succ_next allOkCommitEnv fuel attempt _ _ hemp hstep]
      obtain ⟨ih1, ih2⟩ := ih (attempt + 1)
      constructor
      · simpa using ih1
      · intro a ha
        simp only [CommitResult.consLog_log, List.mem_cons] at ha
        rcases ha with ha | ha
        · simp [ha]
        · exact ih2 a ha

/-- Witness for C5: one queued operation, size 0, a store accepting
everything: three passes of fuel are consumed without returning, all on
empty batches. -/
theorem commit_size_zero_never_returns_applied :
    (runCommit allOkCommitEnv 3 0
        (⟨0, 0, [opD]⟩ : BatcherState Nat)).isOutOfFuel = true
    ∧ ∀ a ∈ (runCommit allOkCommitEnv 3 0
        (⟨0, 0, [opD]⟩ : BatcherState Nat)).log, a.chunk = [] :=
  commit_size_zero_never_returns 3 0 0 [opD] (by decide)

/-- C2 (counterexample to the lower bound): the state with one queued
operation and `batchSize = 0` is reachable — add one operation to a fresh
batcher, then call `commit()` against a store that reports nine oversize
failures (halving 500 down to 0) and then fails with a non-oversize error,
which ends the call.  Its batch size violates `1 ≤ currentSize`. -/
theorem batch_size_lower_bound_fails :
    Reachable (⟨0, 0, [opD]⟩ : BatcherState Nat)
    ∧ ¬ (1 ≤ (⟨0, 0, [opD]⟩ : BatcherState Nat).batchSize
          ∧ (⟨0, 0, [opD]⟩ : BatcherState Nat).batchSize ≤ 500) := by
  constructor
  · have r1 : Reachable (⟨0, 500, [opD]⟩ : BatcherState Nat) := by
      have hb : batcherAdd (initialState : BatcherState Nat) opD
          = ⟨0, 500, [opD]⟩ := rfl
      have h := Reachable.add (α := Nat) opD Reachable.init
      rw [hb] at h
      exact h
    have hfin : (runCommit cexC2Env 12 0
        (⟨0, 500, [opD]⟩ : BatcherState Nat)).isOutOfFuel = false := by decide
    have h2 := Reachable.commitCall cexC2Env 12 r1 hfin
    have hst : (runCommit cexC2Env 12 0
        (⟨0, 500, [opD]⟩ : BatcherState Nat)).state
          = ⟨0, 0, [opD]⟩ := by decide
    rw [hst] at h2
    exact h2
  · decide

/-- C2 (amended): in every reachable state the batch size satisfies
`0 ≤ currentSize ≤ 500`: the upper bound holds (growth is capped by
`min(.., 500)` and halving shrinks), but the lower bound is 0, not 1 —
repeated oversize failures can halve the size to 0. -/
theorem batch_size_at_most_500 {α : Type} (st : BatcherState α)
    (h : Reachable st) : st.batchSize ≤ 500 := by
  induction h with
  | init => exact Nat.le_refl 500
  | add op hr ih => exact ih
  | commitCall env fuel hr hfin ih =>
      exact runCommit_batchSize_le env fuel 0 _ ih
  | allCall env builder fuel cFuel hr hfin ih =>
      exact runAll_batchSize_le env builder cFuel fuel 0 0 _ _ ih

/-- Witness for C2 (amended): the initial state is reachable and within the
bound. -/
theorem batch_size_at_most_500_applied :
    (initialState : BatcherState Nat).batchSize ≤ 500 :=
  batch_size_at_most_500 initialState Reachable.init

/-- C4 (counterexample): `all()` builds its limited query once.  Starting
from a fresh batcher over a store whose query matches one document and
whose first batch attempt is oversized, the commit round leaves
`batchSize = 375`, yet the second `get()` is still issued with the limit
500 captured at entry — not the controller's size at that moment. -/
theorem all_query_limit_not_current :
    (batcherAll cexAllEnv cexBuilder 3 5 (initialState : BatcherState Nat)).issues
        = [⟨500, 500⟩, ⟨500, 375⟩]
    ∧ ¬ (∀ i ∈ (batcherAll cexAllEnv cexBuilder 3 5
          (initialState : BatcherState Nat)).issues,
        i.limit = i.sizeAtIssue) :=
  ⟨by decide, by decide⟩

/-- Every query issued during the `runAll` loop carries the limit the loop
was entered with. -/
theorem runAll_issues_limit (env : AllEnv) (builder : Nat → Operation α)
    (cFuel fuel round attempt limit : Nat) (st : BatcherState α)
    (i : QueryIssue)
    (hi : i ∈ (runAll env builder cFuel fuel round attempt limit st).issues) :
    i.limit = limit := by
  induction fuel generalizing round attempt st with
  | zero => simp [runAll, AllResult.issues] at hi
  | succ fuel ih =>
      cases hdocs : (env.queryGet round limit).isEmpty with
      | true =>
          rw [runAll_succ_get_empty env builder cFuel fuel round attempt
            limit st hdocs] at hi
          simp [AllResult.issues] at hi
          simp [hi]
      | false =>
          rcases hr : runCommit env.toCommitEnv cFuel attempt
              (enqueueAll st ((env.queryGet round limit).map builder))
            with ⟨st2, log⟩ | ⟨e, st2, log⟩ | ⟨st2, log⟩
          · rw [runAll_succ_commit_success env builder cFuel fuel round attempt
              limit st st2 log hdocs hr] at hi
            simp only [AllResult.consIssue_issues, List.mem_cons] at hi
            rcases hi with hi | hi
            · simp [hi]
            · exact ih (round + 1) (attempt + log.length) st2 hi
          · rw [runAll_succ_commit_fatal env builder cFuel fuel round attempt
              limit st st2 e log hdocs hr] at hi
            simp [AllResult.issues] at hi
            simp [hi]
          · rw [runAll_succ_commit_outOfFuel env builder cFuel fuel round attempt
              limit st st2 log hdocs hr] at hi
            simp [AllResult.issues] at hi
            simp [hi]

/-- C4 (amended): every query round of `all()` — the first and every
re-issue after a commit round — is bounded by the single limit captured
when `all()` was called, namely the batch size at entry, even if the
batch size has changed since. -/
theorem all_query_limit_fixed_at_entry (env : AllEnv)
    (builder : Nat → Operation α) (fuel cFuel : Nat) (st : BatcherState α)
    (i : QueryIssue)
    (hi : i ∈ (batcherAll env builder fuel cFuel st).issues) :
    i.limit = st.batchSize :=
  runAll_issues_limit env builder cFuel fuel 0 0 st.batchSize st i hi

/-- Witness for C4 (amended): the second query round of the counterexample
run still carries limit 500, the entry batch size. -/
theorem all_query_limit_fixed_at_entry_applied :
    (⟨500, 375⟩ : QueryIssue).limit
      = (initialState : BatcherState Nat).batchSize :=
  all_query_limit_fixed_at_entry cexAllEnv cexBuilder 3 5 initialState
    ⟨500, 375⟩ (by decide)

/-- C7: a store failure that does not match the oversize signature ends the
`commit()` run immediately at that attempt: the very error value is
rethrown, no further submission is made (the log records only the failing
attempt), and the state is exactly the state the attempt started from — the
not-yet-committed operations all remain queued and `operationsProcessed`
still reflects exactly the chunks committed before the failure.  Moreover
(second conjunct) an `all()` round whose commit ends with a thrown error
returns that same error value and state to its caller unchanged. -/
theorem fatal_error_propagates_unchanged (env : AllEnv) (fuel attempt : Nat)
    (st : BatcherState α) (e : FsError)
    (hne : st.operations.isEmpty = false)
    (hresp : env.toCommitEnv.respond attempt = .error e)
    (hov : isOversizeError e = false) :
    runCommit env.toCommitEnv (fuel + 1) attempt st
        = .fatal e st
            [⟨st.operations.take st.batchSize, st.batchSize, .error e⟩]
    ∧ ∀ (builder : Nat → Operation α) (cFuel fuelA round limit : Nat)
        (stA st2 : BatcherState α) (e2 : FsError) (log : List (Attempt α)),
        (env.queryGet round limit).isEmpty = false →
        runCommit env.toCommitEnv cFuel attempt
            (enqueueAll stA ((env.queryGet round limit).map builder))
          = .fatal e2 st2 log →
        runAll env builder cFuel (fuelA + 1) round attempt limit stA
          = .fatal e2 st2 [⟨limit, stA.batchSize⟩] := by
  constructor
  · have hstep : commitAttempt env.toCommitEnv attempt st = .fatal e st := by
      simp [commitAttempt, hresp, handleCommitError, hov]
    have hrun := runCommit_succ_fatal env.toCommitEnv fuel attempt st st e
      hne hstep
    rw [hresp] at hrun
    exact hrun
  · intro builder cFuel fuelA round limit stA st2 e2 log hdocs hr
    exact runAll_succ_commit_fatal env builder cFuel fuelA round attempt
      limit stA st2 e2 log hdocs hr

/-- Witness for C7: a store failing with a non-oversize error on a queue of
one operation rethrows that error at once and leaves the state intact. -/
theorem fatal_error_propagates_unchanged_applied :
    runCommit fatalAllEnv.toCommitEnv 4 0 (⟨0, 500, [opD]⟩ : BatcherState Nat)
        = .fatal bigErr ⟨0, 500, [opD]⟩ [⟨[opD], 500, .error bigErr⟩]
    ∧ ∀ (builder : Nat → Operation Nat) (cFuel fuelA round limit : Nat)
        (stA st2 : BatcherState Nat) (e2 : FsError) (log : List (Attempt Nat)),
        (fatalAllEnv.queryGet round limit).isEmpty = false →
        runCommit fatalAllEnv.toCommitEnv cFuel 0
            (enqueueAll stA ((fatalAllEnv.queryGet round limit).map builder))
          = .fatal e2 st2 log →
        runAll fatalAllEnv builder cFuel (fuelA + 1) round 0 limit stA
          = .fatal e2 st2 [⟨limit, stA.batchSize⟩] :=
  fatal_error_propagates_unchanged fatalAllEnv 3 0 ⟨0, 500, [opD]⟩ bigErr
    rfl rfl rfl

set_option maxRecDepth 100000 in
/-- C8: the spec scenario — 600 operations on a fresh batcher; the store
rejects the first chunk of 500 as oversized and accepts everything
afterwards.  The size shrinks to 250, a chunk of 250 commits, the size
grows to 375, the next submission carries the remaining 350 operations
(chunk length capped by the queue length, not by the 375 size), and the
run returns with 600 operations processed and an empty queue. -/
theorem scenario_600_oversize_then_success :
    runCommit envC8 5 0 (⟨0, 500, ops600⟩ : BatcherState Nat)
      = .success ⟨600, 500, []⟩
          [⟨ops600.take 500, 500, .error ovErr⟩,
           ⟨ops600.take 250, 250, .ok⟩,
           ⟨ops600.drop 250, 375, .ok⟩]
    ∧ (ops600.drop 250).length = 350
    ∧ 350 < 375 :=
  ⟨rfl, by simp [ops600], by decide⟩

end FirestoreBatcher
